import Mathlib

/-!
Verification of the ash-reporter core: a shallow embedding of the findings
aggregation-and-filtering engine (src/components/SummaryCards.tsx,
src/components/FindingsTable.tsx, src/lib/utils.ts), the client-side data
loader (src/App.tsx), and the report assembler
(scripts/generate-report.js), together with theorems settling the frozen
specification claims.

Modelling conventions:
* JavaScript strings are Lean `String`s; where kernel evaluation matters the
  character list `String.data` is used.
* `Finding.severity` is kept as a raw `String` (not a four-value enum):
  the TypeScript annotation `SeverityLevel` is erased at runtime, and the
  program's documented behaviour for unrecognized severities depends on the
  runtime value, not the static type.
* JavaScript objects used as dictionaries (the `reduce` accumulator in
  `SummaryCards`) are insertion-ordered association lists.
* Fallible operations (file reads, directory listing checks, JSON parsing)
  return `Option`/`Except`; a thrown exception is the error branch.
-/

namespace AshReporter

/-- One scanner-reported issue (`Finding` in src/types/ash.ts).  `score` is a
JSON number on which the program performs no arithmetic anywhere; its literal
text is kept abstract as a string. -/
structure Finding where
  tool : String
  severity : String
  message : String
  location : String
  description : Option String := none
  recommendation : Option String := none
  lineNumber : Option Nat := none
  pattern : Option String := none
  cve : Option String := none
  score : Option String := none
deriving DecidableEq, Repr

/-- `ScanMetadata` in src/types/ash.ts. -/
structure ScanMetadata where
  scanDate : String
  totalFindings : Nat
  tools : List String
  duration : Option Nat := none
  version : Option String := none
deriving DecidableEq, Repr

/-- `ASHReport` in src/types/ash.ts. -/
structure ASHReport where
  findings : List Finding
  metadata : ScanMetadata
deriving DecidableEq, Repr

/-- Per-severity display metadata (`SeverityConfig` in src/types/ash.ts). -/
structure SeverityConfig where
  color : String
  icon : String
  priority : Nat
deriving DecidableEq, Repr

/-- The `severityConfig` constant of src/lib/utils.ts, as an insertion-ordered
association list (the JS object's own-property order, which is what
`Object.entries(severityConfig)` iterates).  The embedding is pure, so the
constant cannot be mutated by any operation modelled here, matching the
`const` declaration that no code in the repository ever writes to. -/
def severityConfig : List (String × SeverityConfig) :=
  [("CRITICAL", ⟨"bg-red-100 text-red-800 border-red-300", "🔴", 4⟩),
   ("HIGH", ⟨"bg-orange-100 text-orange-800 border-orange-300", "🟠", 3⟩),
   ("MEDIUM", ⟨"bg-yellow-100 text-yellow-800 border-yellow-300", "🟡", 2⟩),
   ("LOW", ⟨"bg-green-100 text-green-800 border-green-300", "🟢", 1⟩)]

/-- The four recognized severity keys, in `severityConfig` iteration order. -/
def knownSeverities : List String := severityConfig.map Prod.fst

/-! ## Aggregator (SummaryCards.tsx) -/

/-- One step of the `findings.reduce` in `SummaryCards`:
`acc[finding.severity] = (acc[finding.severity] || 0) + 1` on a JS object
modelled as an insertion-ordered association list (a fresh string key is
appended, an existing one is updated in place). -/
def bumpCount : List (String × Nat) → String → List (String × Nat)
  | [], sev => [(sev, 1)]
  | (k, v) :: rest, sev =>
      if k = sev then (k, v + 1) :: rest else (k, v) :: bumpCount rest sev

/-- The `counts` accumulator of `SummaryCards` (the full `reduce`). -/
def counts (findings : List Finding) : List (String × Nat) :=
  findings.foldl (fun acc f => bumpCount acc f.severity) []

/-- Property read with default: `counts[severityKey] || 0`. -/
def lookupOr0 : List (String × Nat) → String → Nat
  | [], _ => 0
  | (k, v) :: rest, sev => if k = sev then v else lookupOr0 rest sev

/-- The count displayed on the card for severity `sev`:
`counts[severityKey] || 0` in `SummaryCards`. -/
def countSeverity (findings : List Finding) (sev : String) : Nat :=
  lookupOr0 (counts findings) sev

/-! ## Filter engine (FindingsTable.tsx) -/

/-- The sentinel tab value meaning "all tools". -/
def ALL_TAB : String := "all"

/-- The initial `severityFilter` state of `FindingsTable`. -/
def defaultSeverityFilter : List String := ["CRITICAL", "HIGH", "MEDIUM", "LOW"]

/-- `filteredFindings` in `FindingsTable`:
`findings.filter(f => (activeTab === 'all' || f.tool === activeTab) &&
severityFilter.includes(f.severity))`. -/
def filterFindings (findings : List Finding) (activeTab : String)
    (severityFilter : List String) : List Finding :=
  findings.filter fun finding =>
    (activeTab == ALL_TAB || finding.tool == activeTab)
      && severityFilter.contains finding.severity

/-- The JS idiom `[...new Set(xs)]` builds the set in insertion order; one
insertion step keeps an already-seen element and appends a new one. -/
def insertIfNew (acc : List String) (t : String) : List String :=
  if t ∈ acc then acc else acc ++ [t]

/-- `tools` in `FindingsTable`: `[...new Set(findings.map(f => f.tool))]`. -/
def distinctTools (findings : List Finding) : List String :=
  (findings.map Finding.tool).foldl insertIfNew []

/-- The severity-button click handler of `FindingsTable`:
`prev.includes(k) ? prev.filter(s => s !== k) : [...prev, k]`. -/
def toggleSeverity (prev : List String) (k : String) : List String :=
  if prev.contains k then prev.filter (fun s => s != k) else prev ++ [k]

/-- The severity selections reachable through the UI: the initial state,
closed under clicking any of the four buttons rendered from
`Object.entries(severityConfig)`. -/
inductive ReachableSelection : List String → Prop
  | init : ReachableSelection defaultSeverityFilter
  | toggle {S k} : ReachableSelection S → k ∈ knownSeverities →
      ReachableSelection (toggleSeverity S k)

/-! ## Client-side data loader (App.tsx) -/

/-- The built-in sample report constructed in `App`'s data-loading effect
(the development fallback).  `now` abstracts `new Date().toISOString()`. -/
def sampleReport (now : String) : ASHReport :=
  { findings :=
      [{ tool := "Grype", severity := "CRITICAL",
         message := "Vulnerability CVE-2025-1234 in libfoo",
         location := "package.json",
         description := some "A critical vulnerability has been discovered in libfoo that could allow remote code execution.",
         recommendation := some "Upgrade to version 2.3.4 or later",
         cve := some "CVE-2025-1234" },
       { tool := "git-secrets", severity := "HIGH",
         message := "AWS secret detected",
         location := "src/config.js",
         lineNumber := some 42,
         pattern := some "AKIA[0-9A-Z]\x7b16\x7d",
         description := some "AWS access key detected in source code.",
         recommendation := some "Remove the hardcoded AWS access key and use environment variables or AWS IAM roles." },
       { tool := "Semgrep", severity := "MEDIUM",
         message := "Potential SQL injection vulnerability",
         location := "src/database.js",
         lineNumber := some 128,
         description := some "User input is directly concatenated into SQL query.",
         recommendation := some "Use parameterized queries or prepared statements." },
       { tool := "CDK-nag", severity := "LOW",
         message := "S3 bucket versioning not enabled",
         location := "infrastructure/s3-bucket.ts",
         description := some "S3 bucket does not have versioning enabled.",
         recommendation := some "Enable versioning for better data protection and recovery options." }],
    metadata :=
      { scanDate := now, totalFindings := 4,
        tools := ["Grype", "git-secrets", "Semgrep", "CDK-nag"] } }

/-- The data-loading effect of `App`.  `blockText` is
`document.getElementById("ash-data")?.textContent` (`none` when the element is
absent); `parseJson` abstracts `JSON.parse` restricted to `ASHReport` values
(`none` when it throws).  `if (jsonData)` is JS truthiness, so an empty string
takes the sample-data branch; a parse failure only logs, leaving the state at
`null` (here `none`).  No branch performs a network fetch. -/
def loadData (blockText : Option String) (parseJson : String → Option ASHReport)
    (now : String) : Option ASHReport :=
  match blockText with
  | some s =>
      if s = "" then some (sampleReport now)
      else
        match parseJson s with
        | some r => some r
        | none => none
  | none => some (sampleReport now)

/-! ## Report assembler (scripts/generate-report.js) -/

/-- The `__CSS_SECTION__` placeholder. -/
def cssMarker : String := "__CSS_SECTION__"

/-- The `__ASH_DATA__` placeholder. -/
def dataMarker : String := "__ASH_DATA__"

/-- The `__JS_CONTENT__` placeholder. -/
def jsMarker : String := "__JS_CONTENT__"

/-- Template text up to (excluding) the `__CSS_SECTION__` placeholder. -/
def tmplA : String :=
  "<!DOCTYPE html>\n<html lang=\"en\">\n<head>\n  <meta charset=\"UTF-8\">\n  <meta name=\"viewport\" content=\"width=device-width, initial-scale=1.0\">\n  <title>ASH Security Report</title>"

/-- Template text between `__CSS_SECTION__` and `__ASH_DATA__`. -/
def tmplB : String :=
  "\n</head>\n<body>\n  <div id=\"app\"></div>\n  <script id=\"ash-data\" type=\"application/json\">"

/-- Template text between `__ASH_DATA__` and `__JS_CONTENT__`. -/
def tmplC : String := "</script>\n  <script>\n"

/-- Template text after `__JS_CONTENT__`. -/
def tmplD : String := "\n  </script>\n</body>\n</html>"

/-- The `template` constant of scripts/generate-report.js, written as the
concatenation of its literal segments and the three placeholders. -/
def template : String :=
  tmplA ++ cssMarker ++ tmplB ++ dataMarker ++ tmplC ++ jsMarker ++ tmplD

/-- JS `String.prototype.replace` with a string pattern: replaces only the
first occurrence, scanning left to right; returns the input unchanged when the
pattern does not occur.  (The `$`-escape convention for the replacement string
is not modelled; no claim concerns it.)  Character-list version. -/
def replaceFirstL (pat rep : List Char) : List Char → List Char
  | [] => []
  | c :: rest =>
      if pat.isPrefixOf (c :: rest) then rep ++ (c :: rest).drop pat.length
      else c :: replaceFirstL pat rep rest

/-- JS `String.prototype.replace` with a string pattern, on `String`. -/
def replaceFirst (s pat rep : String) : String :=
  ⟨replaceFirstL pat.data rep.data s.data⟩

/-- JS `String.prototype.endsWith`. -/
def strEndsWith (f suffix : String) : Bool :=
  List.isSuffixOf suffix.data f.data

/-- `path.join` as used here (POSIX separator). -/
def joinPath (dir f : String) : String := dir ++ "/" ++ f

/-- The assets directory `join(process.cwd(), 'dist', 'assets')`, relative to
the working directory. -/
def assetsDir : String := "dist/assets"

/-- A snapshot of the pieces of the filesystem the assembler touches:
`assets` is the `readdirSync` listing of `dist/assets`; `read` is
`readFileSync` (`none` when the read throws). -/
structure AssetsFS where
  assets : List String
  read : String → Option String

/-- `findAssetFiles` of scripts/generate-report.js: the first `.css` and the
first `.js` entry of the listing; throws only when no `.js` entry exists, and
joins the directory onto the names it returns. -/
def findAssetFiles (files : List String) : Except String (Option String × String) :=
  let cssFile := files.find? (fun f => strEndsWith f ".css")
  let jsFile := files.find? (fun f => strEndsWith f ".js")
  match jsFile with
  | none => .error ("Missing JavaScript bundle: " ++ String.intercalate ", " files)
  | some js => .ok (cssFile.map (joinPath assetsDir), joinPath assetsDir js)

/-- `readFileSync(p, 'utf-8')` as an `Except` (the thrown `ENOENT` is the
error branch). -/
def readFile (fs : AssetsFS) (p : String) : Except String String :=
  match fs.read p with
  | some c => .ok c
  | none => .error ("ENOENT: no such file, open " ++ p)

/-- The `cssSection` template-literal wrapper of generate-report.js. -/
def cssSectionOf (cssContent : String) : String :=
  "\n  <style>\n" ++ cssContent ++ "\n  </style>"

/-- The CSS branch of `generateReport`: read and wrap the CSS file when one
was found, otherwise the empty section. -/
def cssSectionExcept (fs : AssetsFS) (cssPath : Option String) : Except String String :=
  match cssPath with
  | some p => (readFile fs p).map cssSectionOf
  | none => .ok ""

/-- The placeholder-substitution chain of `generateReport`:
`template.replace('__ASH_DATA__', d).replace('__CSS_SECTION__', c)
.replace('__JS_CONTENT__', j)`. -/
def assembledHtml (ashData cssSection jsContent : String) : String :=
  replaceFirst (replaceFirst (replaceFirst template dataMarker ashData)
    cssMarker cssSection) jsMarker jsContent

/-- `generateReport` of scripts/generate-report.js: locate assets, read data,
JS and (optionally) CSS, substitute, and deliver the output path and the fully
substituted document — in the source's order.  Any thrown error
short-circuits as the `Except` error branch before a document exists. -/
def generateReport (fs : AssetsFS) (ashDataPath outputPath : String) :
    Except String (String × String) :=
  match findAssetFiles fs.assets with
  | .error e => .error e
  | .ok assets =>
    match readFile fs ashDataPath with
    | .error e => .error e
    | .ok ashData =>
      match readFile fs assets.2 with
      | .error e => .error e
      | .ok jsContent =>
        match cssSectionExcept fs assets.1 with
        | .error e => .error e
        | .ok cssSection => .ok (outputPath, assembledHtml ashData cssSection jsContent)

/-- The top-level `try { generateReport(...) } catch { exit(1) }` driver:
`writeFileSync` runs only after `generateReport` has produced the complete
document.  Result: the list of (path, contents) writes performed, and the
process exit code. -/
def runGenerate (fs : AssetsFS) (ashDataPath outputPath : String) :
    List (String × String) × Nat :=
  match generateReport fs ashDataPath outputPath with
  | .ok (p, html) => ([(p, html)], 0)
  | .error _ => ([], 1)

/-- The command-line handling at the bottom of scripts/generate-report.js:
fewer than three `process.argv` entries (node, the script, and at least one
positional argument) prints usage and exits 1 (`none`); otherwise the input
path is `argv[2]` and the output path `argv[3] || 'ash-security-report.html'`
(JS truthiness: an empty third positional also takes the default). -/
def resolveArgs (argv : List String) : Option (String × String) :=
  if argv.length < 3 then none
  else
    let ashDataPath := argv.getD 2 ""
    let rawOut := argv.getD 3 ""
    some (ashDataPath, if rawOut = "" then "ash-security-report.html" else rawOut)

/-! ## Aggregator lemmas -/

lemma lookupOr0_bumpCount (acc : List (String × Nat)) (s sev : String) :
    lookupOr0 (bumpCount acc s) sev
      = lookupOr0 acc sev + (if s = sev then 1 else 0) := by
  induction acc with
  | nil => by_cases h : s = sev <;> simp [bumpCount, lookupOr0, h]
  | cons kv rest ih =>
      obtain ⟨k, v⟩ := kv
      by_cases hks : k = s
      · subst hks
        by_cases hksev : k = sev <;> simp [bumpCount, lookupOr0, hksev]
      · by_cases hksev : k = sev
        · subst hksev
          have hne : ¬ s = k := fun e => hks e.symm
          simp [bumpCount, lookupOr0, hks, hne]
        · simp [bumpCount, lookupOr0, hks, hksev, ih]

lemma lookupOr0_counts_aux (fs : List Finding) (acc : List (String × Nat))
    (sev : String) :
    lookupOr0 (fs.foldl (fun a f => bumpCount a f.severity) acc) sev
      = lookupOr0 acc sev + (fs.filter (fun f => f.severity == sev)).length := by
  induction fs generalizing acc with
  | nil => simp
  | cons f rest ih =>
      simp only [List.foldl_cons, List.filter_cons]
      rw [ih, lookupOr0_bumpCount]
      by_cases h : f.severity = sev
      · simp [h]
        omega
      · simp [h]

/-- The displayed per-severity count is exactly the number of findings whose
`severity` field equals the key. -/
lemma countSeverity_eq (fs : List Finding) (sev : String) :
    countSeverity fs sev = (fs.filter (fun f => f.severity == sev)).length := by
  simpa [countSeverity, counts, lookupOr0] using lookupOr0_counts_aux fs [] sev

lemma contains_iff_mem (S : List String) (s : String) :
    S.contains s = true ↔ s ∈ S := by
  simp [List.elem_iff]

lemma filter_cons_key_split (k : String) (ks : List String)
    (hk : k ∉ ks) (fs : List Finding) :
    (fs.filter (fun f => (k :: ks).contains f.severity)).length
      = (fs.filter (fun f => f.severity == k)).length
        + (fs.filter (fun f => ks.contains f.severity)).length := by
  induction fs with
  | nil => simp
  | cons f rest ih =>
      by_cases h : f.severity = k
      · have h2 : f.severity ∉ ks := h ▸ hk
        simp [List.filter_cons, List.contains_cons, h, h2, hk] at ih ⊢
        omega
      · by_cases h2 : f.severity ∈ ks
        · simp [List.filter_cons, List.contains_cons, h, h2] at ih ⊢
          omega
        · simp [List.filter_cons, List.contains_cons, h, h2] at ih ⊢
          omega

lemma sum_counts_known (ks : List String) (hk : ks.Nodup) (fs : List Finding) :
    (ks.map (countSeverity fs)).sum
      = (fs.filter (fun f => ks.contains f.severity)).length := by
  induction ks with
  | nil => simp
  | cons k rest ih =>
      rw [List.map_cons, List.sum_cons, ih (List.nodup_cons.mp hk).2,
        filter_cons_key_split k rest (List.nodup_cons.mp hk).1, countSeverity_eq]

/-- C3: For every findings list, severity-selection set and tool filter, the
filtered output is a sublist of the input (hence preserves relative order),
and a finding appears in the output iff its severity is selected and the tool
filter is the ALL sentinel or matches the finding's tool exactly; the two
predicates are combined by conjunction. -/
theorem c3_theorem (fs : List Finding) (t : String) (S : List String) :
    (filterFindings fs t S).Sublist fs ∧
    ∀ f : Finding, f ∈ filterFindings fs t S ↔
      f ∈ fs ∧ f.severity ∈ S ∧ (t = ALL_TAB ∨ f.tool = t) := by
  constructor
  · exact List.filter_sublist fs
  · intro f
    simp only [filterFindings, List.mem_filter, Bool.and_eq_true,
      Bool.or_eq_true, beq_iff_eq, contains_iff_mem]
    tauto

/-- C4: the four severity counts are exact match-counts (0 when the severity
is absent), they sum to the number of findings whose severity is one of the
four known values, and that sum never exceeds the length of the list. -/
theorem c4_theorem (fs : List Finding) :
    (∀ sev : String,
        countSeverity fs sev = (fs.filter (fun f => f.severity == sev)).length) ∧
    countSeverity fs "CRITICAL" + countSeverity fs "HIGH"
        + countSeverity fs "MEDIUM" + countSeverity fs "LOW"
      = (fs.filter (fun f => knownSeverities.contains f.severity)).length ∧
    countSeverity fs "CRITICAL" + countSeverity fs "HIGH"
        + countSeverity fs "MEDIUM" + countSeverity fs "LOW" ≤ fs.length := by
  have he : knownSeverities = ["CRITICAL", "HIGH", "MEDIUM", "LOW"] := rfl
  have hsum := sum_counts_known knownSeverities (by decide) fs
  simp only [he, List.map_cons, List.map_nil, List.sum_cons, List.sum_nil] at hsum
  have hle := List.length_filter_le
    (fun f => (["CRITICAL", "HIGH", "MEDIUM", "LOW"] : List String).contains f.severity) fs
  refine ⟨countSeverity_eq fs, ?_, ?_⟩ <;> (try simp only [he]) <;> omega

/-- C8: boundary behaviour — the empty findings list yields all-zero counts,
an empty distinct-tool sequence and empty filter results; and an empty
severity selection filters every list down to the empty list. -/
theorem c8_theorem :
    (∀ sev : String, countSeverity [] sev = 0) ∧
    distinctTools [] = [] ∧
    (∀ (t : String) (S : List String), filterFindings [] t S = []) ∧
    (∀ (fs : List Finding) (t : String), filterFindings fs t [] = []) := by
  refine ⟨fun _ => rfl, rfl, fun _ _ => rfl, fun fs t => ?_⟩
  simp [filterFindings, List.filter_eq_nil_iff]

/-- C9: the severity display-configuration table is keyed by exactly the four
severities in its declared iteration order, assigns each a colour token, an
icon and a numeric priority, with the four priorities unique and given by
LOW=1, MEDIUM=2, HIGH=3, CRITICAL=4 (strictly increasing from LOW up to
CRITICAL).  The table is a single constant of the pure embedding, so no
operation modelled here can mutate it. -/
theorem c9_theorem :
    severityConfig.map Prod.fst = ["CRITICAL", "HIGH", "MEDIUM", "LOW"] ∧
    (severityConfig.lookup "LOW").map SeverityConfig.priority = some 1 ∧
    (severityConfig.lookup "MEDIUM").map SeverityConfig.priority = some 2 ∧
    (severityConfig.lookup "HIGH").map SeverityConfig.priority = some 3 ∧
    (severityConfig.lookup "CRITICAL").map SeverityConfig.priority = some 4 ∧
    (severityConfig.map (fun p => p.2.priority)).Nodup ∧
    severityConfig.map (fun p => p.2.icon) = ["🔴", "🟠", "🟡", "🟢"] ∧
    (severityConfig.map (fun p => p.2.color)).all (fun c => c ≠ "") := by
  decide

/-! ## Distinct-tool sequence lemmas -/

lemma foldl_insertIfNew_concat (l : List String) (x : String) :
    (l ++ [x]).foldl insertIfNew [] = insertIfNew (l.foldl insertIfNew []) x := by
  simp [List.foldl_append]

lemma insertIfNew_of_mem {acc : List String} {x : String} (h : x ∈ acc) :
    insertIfNew acc x = acc := by
  simp [insertIfNew, h]

lemma insertIfNew_of_not_mem {acc : List String} {x : String} (h : x ∉ acc) :
    insertIfNew acc x = acc ++ [x] := by
  simp [insertIfNew, h]

lemma mem_foldl_insertIfNew (l : List String) :
    ∀ a : String, a ∈ l.foldl insertIfNew [] ↔ a ∈ l := by
  induction l using List.reverseRecOn with
  | nil => simp
  | append_singleton l x ih =>
      intro a
      rw [foldl_insertIfNew_concat]
      by_cases h : x ∈ l.foldl insertIfNew []
      · have hx : x ∈ l := (ih x).mp h
        rw [insertIfNew_of_mem h, ih a]
        simp only [List.mem_append, List.mem_singleton]
        constructor
        · exact Or.inl
        · rintro (ha | rfl)
          · exact ha
          · exact hx
      · rw [insertIfNew_of_not_mem h]
        simp [ih]

lemma nodup_foldl_insertIfNew (l : List String) :
    (l.foldl insertIfNew []).Nodup := by
  induction l using List.reverseRecOn with
  | nil => simp
  | append_singleton l x ih =>
      rw [foldl_insertIfNew_concat]
      by_cases h : x ∈ l.foldl insertIfNew []
      · rwa [insertIfNew_of_mem h]
      · rw [insertIfNew_of_not_mem h]
        simp [List.nodup_append, ih, h]

lemma indexOf_concat_self (l : List String) (x : String) (h : x ∉ l) :
    (l ++ [x]).indexOf x = l.length := by
  rw [List.indexOf_append_of_not_mem h]
  simp

lemma pairwise_foldl_insertIfNew (l : List String) :
    (l.foldl insertIfNew []).Pairwise (fun a b => l.indexOf a < l.indexOf b) := by
  induction l using List.reverseRecOn with
  | nil => simp
  | append_singleton l x ih =>
      rw [foldl_insertIfNew_concat]
      have transported :
          (l.foldl insertIfNew []).Pairwise
            (fun a b => (l ++ [x]).indexOf a < (l ++ [x]).indexOf b) := by
        refine ih.imp_of_mem ?_
        intro a b ha hb hab
        have ha' : a ∈ l := (mem_foldl_insertIfNew l a).mp ha
        have hb' : b ∈ l := (mem_foldl_insertIfNew l b).mp hb
        rwa [List.indexOf_append_of_mem ha', List.indexOf_append_of_mem hb']
      by_cases h : x ∈ l.foldl insertIfNew []
      · rwa [insertIfNew_of_mem h]
      · rw [insertIfNew_of_not_mem h]
        have hxl : x ∉ l := fun hx => h ((mem_foldl_insertIfNew l x).mpr hx)
        rw [List.pairwise_append]
        refine ⟨transported, by simp, ?_⟩
        intro a ha b hb
        have hb' : b = x := by simpa using hb
        subst hb'
        have ha' : a ∈ l := (mem_foldl_insertIfNew l a).mp ha
        rw [List.indexOf_append_of_mem ha', indexOf_concat_self l b hxl]
        exact List.indexOf_lt_length.mpr ha'

/-- C5: the derived distinct-tool sequence has no duplicates, contains exactly
the tool identifiers occurring in the findings list, and lists them in
first-occurrence order of the input: along the output, the index of each
tool's first occurrence in the input is strictly increasing. -/
theorem c5_theorem (fs : List Finding) :
    (distinctTools fs).Nodup ∧
    (∀ t : String, t ∈ distinctTools fs ↔ t ∈ fs.map Finding.tool) ∧
    (distinctTools fs).Pairwise
      (fun a b => (fs.map Finding.tool).indexOf a
        < (fs.map Finding.tool).indexOf b) :=
  ⟨nodup_foldl_insertIfNew _, fun t => mem_foldl_insertIfNew _ t,
    pairwise_foldl_insertIfNew _⟩

/-! ## Unknown severities, reachable selections -/

lemma reachable_subset_known {S : List String} (h : ReachableSelection S) :
    ∀ s ∈ S, s ∈ knownSeverities := by
  induction h with
  | init =>
      intro s hs
      have he : defaultSeverityFilter = knownSeverities := rfl
      exact he ▸ hs
  | toggle _ hk ih =>
      intro s hs
      unfold toggleSeverity at hs
      split at hs
      · exact ih s (List.mem_filter.mp hs).1
      · rcases List.mem_append.mp hs with h1 | h1
        · exact ih s h1
        · rw [List.mem_singleton.mp h1]
          exact hk

/-- A finding used in edge-case checks: its severity is none of the four
recognized values. -/
def unknownFinding : Finding :=
  { tool := "TestTool", severity := "UNKNOWN", message := "m", location := "loc" }

/-- C7 (amended): a finding with an unrecognized severity leaves all four
severity buckets unchanged (the total aggregation functions cannot throw),
and it stays in the underlying findings list; but it is NOT visible in the
severity-filtered table under any UI-reachable severity selection, because
the selection can only ever contain the four known severities. -/
theorem c7_theorem (fs : List Finding) (f : Finding) (t : String)
    (S : List String) (hS : ReachableSelection S)
    (hsev : f.severity ∉ knownSeverities) :
    (∀ k ∈ knownSeverities, countSeverity (f :: fs) k = countSeverity fs k) ∧
    f ∉ filterFindings (f :: fs) t S ∧
    f ∈ f :: fs := by
  refine ⟨?_, ?_, List.mem_cons_self f fs⟩
  · intro k hk
    rw [countSeverity_eq, countSeverity_eq]
    have hne : ¬ (f.severity == k) = true := by
      rw [beq_iff_eq]
      rintro rfl
      exact hsev hk
    simp [List.filter_cons, hne]
  · intro hmem
    have hpred := (List.mem_filter.mp hmem).2
    have hsel : S.contains f.severity = true := by
      have := (Bool.and_eq_true _ _).mp hpred
      exact this.2
    exact hsev (reachable_subset_known hS f.severity
      ((contains_iff_mem S f.severity).mp hsel))

/-- C7 witness: the amended statement at a concrete unknown-severity finding,
the default severity selection and the all-tools tab. -/
theorem c7_witness :
    (∀ k ∈ knownSeverities,
        countSeverity [unknownFinding] k = countSeverity [] k) ∧
    unknownFinding ∉ filterFindings [unknownFinding] ALL_TAB defaultSeverityFilter ∧
    unknownFinding ∈ [unknownFinding] :=
  c7_theorem [] unknownFinding ALL_TAB defaultSeverityFilter
    ReachableSelection.init (by decide)

/-- C7 counterexample to the claim as stated: an unknown-severity finding is
*not* "still visible in filtered views" — with the initial severity selection
and the all-tools tab the filtered list is empty even though the finding is in
the underlying list (and, as the claim correctly says, it is excluded from
all four buckets without an exception). -/
theorem c7_counterexample :
    filterFindings [unknownFinding] ALL_TAB defaultSeverityFilter = [] ∧
    unknownFinding ∈ [unknownFinding] ∧
    countSeverity [unknownFinding] "CRITICAL" = 0 ∧
    countSeverity [unknownFinding] "HIGH" = 0 ∧
    countSeverity [unknownFinding] "MEDIUM" = 0 ∧
    countSeverity [unknownFinding] "LOW" = 0 := by
  decide

/-! ## Claims about the data loader -/

/-- C2 (amended): when the embedded JSON block is absent — or present but
empty, which JS truthiness treats the same way — the loader falls back to the
built-in sample report (and to nothing else: no branch fetches).  When the
block is present and non-empty but unparsable, the loader does NOT fall back
to the sample: it leaves the data unset (the UI then shows its no-data
state).  A successful parse is used as-is. -/
theorem c2_theorem (parseJson : String → Option ASHReport) (now : String) :
    loadData none parseJson now = some (sampleReport now) ∧
    loadData (some "") parseJson now = some (sampleReport now) ∧
    (∀ s, s ≠ "" → parseJson s = none → loadData (some s) parseJson now = none) ∧
    (∀ s r, s ≠ "" → parseJson s = some r →
      loadData (some s) parseJson now = some r) := by
  refine ⟨rfl, rfl, ?_, ?_⟩
  · intro s hs hp
    simp [loadData, hs, hp]
  · intro s r hs hp
    simp [loadData, hs, hp]

/-- C2 witness: the amended behaviour at concrete inputs (an absent block, and
a present block holding unparsable text, with `JSON.parse`'s behaviour on that
text abstracted as failure). -/
theorem c2_witness :
    loadData none (fun _ => none) "2025-01-01T00:00:00Z"
      = some (sampleReport "2025-01-01T00:00:00Z") ∧
    loadData (some "not json") (fun _ => none) "2025-01-01T00:00:00Z" = none :=
  ⟨(c2_theorem (fun _ => none) "2025-01-01T00:00:00Z").1,
   (c2_theorem (fun _ => none) "2025-01-01T00:00:00Z").2.2.1 "not json"
     (by decide) rfl⟩

/-- C2 counterexample to the claim as stated: an embedded block whose content
is unparsable does NOT produce the built-in sample report — the loader yields
no report at all. -/
theorem c2_counterexample :
    loadData (some "not json") (fun _ => none) "2025-01-01T00:00:00Z" = none ∧
    (none : Option ASHReport) ≠ some (sampleReport "2025-01-01T00:00:00Z") := by
  exact ⟨rfl, by simp⟩

/-! ## Claims about the command line -/

/-- C6: evaluating the argument handling of scripts/generate-report.js.  With
no positional argument the script does NOT default the input path: it prints
usage and exits 1 (`none`).  With one positional argument the output path
defaults to `ash-security-report.html`; with two, both are taken verbatim.
The README documents the first positional as optional with default
`sample-ash-data.json`, which the code contradicts. -/
theorem c6_theorem :
    resolveArgs ["node", "scripts/generate-report.js"] = none ∧
    resolveArgs ["node", "scripts/generate-report.js", "in.json"]
      = some ("in.json", "ash-security-report.html") ∧
    resolveArgs ["node", "scripts/generate-report.js", "in.json", "out.html"]
      = some ("in.json", "out.html") := by
  decide

/-! ## Claims about the report assembler -/

/-- Directory snapshot with no file matching the JS-bundle suffix. -/
def fsNoJs : AssetsFS := { assets := ["style.css"], read := fun _ => none }

/-- Directory snapshot with TWO files matching the JS-bundle suffix; the data
file and the first bundle are readable. -/
def fsTwoJs : AssetsFS :=
  { assets := ["app1.js", "app2.js"],
    read := fun p =>
      if p = "dist/assets/app1.js" then some "JSONE"
      else if p = "data.json" then some "DATA" else none }

/-- C1 (amended): when NO file in the assets listing matches the JS-bundle
suffix, the run is fatal — exit code 1 and no file written.  When the bundle
resolves (with several matches, `find` takes the first in directory order) and
the reads succeed, the run writes exactly one file, whose contents are the
fully substituted document — never a partial one — and exits 0. -/
theorem c1_theorem (fs : AssetsFS) (ashDataPath outputPath : String) :
    ((∀ f ∈ fs.assets, strEndsWith f ".js" = false) →
      runGenerate fs ashDataPath outputPath = ([], 1)) ∧
    (∀ (cssPath : Option String) (jsPath : String),
      findAssetFiles fs.assets = .ok (cssPath, jsPath) →
      ∀ ashData jsContent cssSection : String,
        readFile fs ashDataPath = .ok ashData →
        readFile fs jsPath = .ok jsContent →
        cssSectionExcept fs cssPath = .ok cssSection →
        runGenerate fs ashDataPath outputPath =
          ([(outputPath, assembledHtml ashData cssSection jsContent)], 0)) := by
  constructor
  · intro h
    have hfind : fs.assets.find? (fun f => strEndsWith f ".js") = none := by
      apply List.find?_eq_none.mpr
      intro x hx
      simp [h x hx]
    have hfa : findAssetFiles fs.assets
        = .error ("Missing JavaScript bundle: "
            ++ String.intercalate ", " fs.assets) := by
      simp only [findAssetFiles, hfind]
    simp [runGenerate, generateReport, hfa]
  · intro cssPath jsPath hfa ashData jsContent cssSection hd hj hc
    simp only [runGenerate, generateReport, hfa, hd, hj, hc]

/-- C1 witness: the amended statement at two concrete directory snapshots
(no JS bundle; two JS bundles with readable data and first bundle). -/
theorem c1_witness :
    runGenerate fsNoJs "data.json" "out.html" = ([], 1) ∧
    runGenerate fsTwoJs "data.json" "out.html"
      = ([("out.html", assembledHtml "DATA" "" "JSONE")], 0) :=
  ⟨(c1_theorem fsNoJs "data.json" "out.html").1 (by decide),
   (c1_theorem fsTwoJs "data.json" "out.html").2 none "dist/assets/app1.js"
     rfl "DATA" "JSONE" "" rfl rfl rfl⟩

/-- C1 counterexample to the claim as stated: an assets directory holding
MULTIPLE files matching the JS-bundle suffix is not fatal — the run exits 0
and writes one output file (the first bundle in directory order is used). -/
theorem c1_counterexample :
    (runGenerate fsTwoJs "data.json" "out.html").2 = 0 ∧
    (runGenerate fsTwoJs "data.json" "out.html").1.length = 1 ∧
    (fsTwoJs.assets.filter (fun f => strEndsWith f ".js")).length = 2 := by
  refine ⟨rfl, rfl, by decide⟩

/-! ## Placeholder-substitution positions -/

/-- No occurrence of `pat` starts at any position strictly inside `a` when
`pat` is appended right after `a` (matches that straddle the boundary
included). -/
def noEarlierMatch (pat a : List Char) : Prop :=
  ∀ i < a.length, pat.isPrefixOf ((a ++ pat).drop i) = false

instance (pat a : List Char) : Decidable (noEarlierMatch pat a) := by
  unfold noEarlierMatch
  infer_instance

lemma isPrefixOf_append_of_le {pat x : List Char} (b : List Char)
    (h : pat.length ≤ x.length) :
    pat.isPrefixOf (x ++ b) = pat.isPrefixOf x := by
  induction pat generalizing x with
  | nil => simp [List.isPrefixOf]
  | cons p ps ih =>
      cases x with
      | nil => simp at h
      | cons y ys =>
          simp only [List.cons_append, List.isPrefixOf]
          have hys := ih (x := ys) (by simpa using h)
          simp only [List.append_eq] at hys ⊢
          rw [hys]

/-- `replace` finds the occurrence of `pat` sitting right after `a` when no
occurrence starts earlier, and splices the replacement there. -/
lemma replaceFirstL_at (pat rep : List Char) (hpat : pat ≠ []) :
    ∀ a b : List Char, noEarlierMatch pat a →
      replaceFirstL pat rep (a ++ pat ++ b) = a ++ rep ++ b := by
  intro a
  induction a with
  | nil =>
      intro b _
      simp only [List.nil_append]
      rcases hp : pat with _ | ⟨p, ps⟩
      · exact absurd hp hpat
      · rw [List.cons_append]
        simp only [replaceFirstL]
        have hpre : (p :: ps).isPrefixOf (p :: (ps ++ b)) = true := by
          rw [List.isPrefixOf_iff_prefix, ← List.cons_append]
          exact List.prefix_append (p :: ps) b
        rw [if_pos hpre]
        simp [List.drop_left]
  | cons c a' ih =>
      intro b h
      have h0 : pat.isPrefixOf ((c :: a') ++ pat) = false := by
        have := h 0 (by simp)
        simpa using this
      have hfalse : pat.isPrefixOf (((c :: a') ++ pat) ++ b) = false := by
        rw [isPrefixOf_append_of_le b (by simp; omega), h0]
      have e1 : ((c :: a') ++ pat) ++ b = c :: (a' ++ pat ++ b) := by simp
      have e2 : ((c :: a') ++ rep) ++ b = c :: (a' ++ rep ++ b) := by simp
      rw [e1] at hfalse
      rw [e1, e2]
      simp only [replaceFirstL]
      rw [if_neg (by rw [hfalse]; exact Bool.false_ne_true)]
      congr 1
      apply ih
      intro i hi
      have hstep := h (i + 1) (by simpa using Nat.succ_lt_succ hi)
      simpa using hstep

set_option maxRecDepth 20000 in
/-- C10 (amended): substitution replaces only the first occurrence of each
placeholder and injects the data first.  The embedded-data region sits after
the template's CSS slot but before its JS slot; hence a `__JS_CONTENT__`
occurring in the data (here: the first such occurrence, with the placeholder
not occurring earlier in the assembled page prefix — in particular not in the
CSS section) captures the JavaScript substitution, leaving the template's
script slot holding the literal placeholder text, while a `__CSS_SECTION__`
in the data does NOT capture the CSS substitution. -/
theorem c10_theorem (cssSection jsContent d1 d2 : String)
    (h : noEarlierMatch jsMarker.data
        (tmplA.data ++ cssSection.data ++ tmplB.data ++ d1.data)) :
    assembledHtml (d1 ++ jsMarker ++ d2) cssSection jsContent
      = tmplA ++ cssSection ++ tmplB ++ d1 ++ jsContent ++ d2
          ++ tmplC ++ jsMarker ++ tmplD := by
  have etempl : template.data
      = (tmplA.data ++ cssMarker.data ++ tmplB.data) ++ dataMarker.data
          ++ (tmplC.data ++ jsMarker.data ++ tmplD.data) := by
    simp [template, String.data_append]
  have h1 : replaceFirstL dataMarker.data (d1 ++ jsMarker ++ d2).data template.data
      = (tmplA.data ++ cssMarker.data ++ tmplB.data) ++ (d1 ++ jsMarker ++ d2).data
          ++ (tmplC.data ++ jsMarker.data ++ tmplD.data) := by
    rw [etempl]
    exact replaceFirstL_at _ _ (by decide) _ _ (by decide)
  have e2 : (tmplA.data ++ cssMarker.data ++ tmplB.data) ++ (d1 ++ jsMarker ++ d2).data
          ++ (tmplC.data ++ jsMarker.data ++ tmplD.data)
      = tmplA.data ++ cssMarker.data
          ++ (tmplB.data ++ (d1 ++ jsMarker ++ d2).data
              ++ (tmplC.data ++ jsMarker.data ++ tmplD.data)) := by
    simp
  have h2 : replaceFirstL cssMarker.data cssSection.data
        ((tmplA.data ++ cssMarker.data ++ tmplB.data) ++ (d1 ++ jsMarker ++ d2).data
          ++ (tmplC.data ++ jsMarker.data ++ tmplD.data))
      = tmplA.data ++ cssSection.data
          ++ (tmplB.data ++ (d1 ++ jsMarker ++ d2).data
              ++ (tmplC.data ++ jsMarker.data ++ tmplD.data)) := by
    rw [e2]
    exact replaceFirstL_at _ _ (by decide) _ _ (by decide)
  have hdd : (d1 ++ jsMarker ++ d2).data = d1.data ++ jsMarker.data ++ d2.data := by
    simp [String.data_append]
  have e3 : tmplA.data ++ cssSection.data
          ++ (tmplB.data ++ (d1.data ++ jsMarker.data ++ d2.data)
              ++ (tmplC.data ++ jsMarker.data ++ tmplD.data))
      = (tmplA.data ++ cssSection.data ++ tmplB.data ++ d1.data) ++ jsMarker.data
          ++ (d2.data ++ (tmplC.data ++ jsMarker.data ++ tmplD.data)) := by
    simp
  have h3 : replaceFirstL jsMarker.data jsContent.data
        (tmplA.data ++ cssSection.data
          ++ (tmplB.data ++ (d1.data ++ jsMarker.data ++ d2.data)
              ++ (tmplC.data ++ jsMarker.data ++ tmplD.data)))
      = (tmplA.data ++ cssSection.data ++ tmplB.data ++ d1.data) ++ jsContent.data
          ++ (d2.data ++ (tmplC.data ++ jsMarker.data ++ tmplD.data)) := by
    rw [e3]
    exact replaceFirstL_at _ _ (by decide) _ _ h
  apply String.ext
  show replaceFirstL jsMarker.data jsContent.data
      (replaceFirstL cssMarker.data cssSection.data
        (replaceFirstL dataMarker.data (d1 ++ jsMarker ++ d2).data template.data))
    = (tmplA ++ cssSection ++ tmplB ++ d1 ++ jsContent ++ d2
        ++ tmplC ++ jsMarker ++ tmplD).data
  rw [h1, h2, hdd, h3]
  simp [String.data_append]

set_option maxRecDepth 20000 in
/-- C10 witness: the amended statement at a concrete input whose embedded data
is exactly the JS placeholder. -/
theorem c10_witness :
    assembledHtml ("" ++ jsMarker ++ "") "" "JSX"
      = tmplA ++ "" ++ tmplB ++ "" ++ "JSX" ++ "" ++ tmplC ++ jsMarker ++ tmplD :=
  c10_theorem "" "JSX" "" "" (by decide)

set_option maxRecDepth 20000 in
/-- C10 counterexample to the claim as stated: for data text consisting of
the literal `__CSS_SECTION__`, the CSS content is substituted into the
template's intended head slot — NOT into the occurrence inside the embedded
data region, which retains the literal in the written output. -/
theorem c10_counterexample :
    assembledHtml cssMarker "CSSX" "JSX"
        = tmplA ++ "CSSX" ++ tmplB ++ cssMarker ++ tmplC ++ "JSX" ++ tmplD ∧
    assembledHtml cssMarker "CSSX" "JSX"
        ≠ tmplA ++ cssMarker ++ tmplB ++ "CSSX" ++ tmplC ++ "JSX" ++ tmplD := by
  constructor
  · decide
  · decide

end AshReporter
